import Mathlib

/-!
Verification of the edge-slide-by-distance operator core
(`operators.py`, class `MESH_OT_edge_slide_by_distance`).

The mesh snapshot is embedded as read-only lookup functions over natural
number identifiers for vertices, edges and faces. Vertex positions are
three real coordinates; the float arithmetic of the original is modelled
by exact real arithmetic.
-/

namespace EdgeSlide

/-- A 3D position, modelling `mathutils.Vector` with three components. -/
structure Vec3 where
  x : ℝ
  y : ℝ
  z : ℝ

/-- Componentwise midpoint, modelling `(a + b) / 2` on vectors. -/
noncomputable def mid (a b : Vec3) : Vec3 :=
  ⟨(a.x + b.x) / 2, (a.y + b.y) / 2, (a.z + b.z) / 2⟩

/-- Squared Euclidean norm of a vector. -/
def sqLen (v : Vec3) : ℝ :=
  v.x ^ 2 + v.y ^ 2 + v.z ^ 2

/-- Euclidean norm, modelling `Vector.length`. -/
noncomputable def vlen (v : Vec3) : ℝ :=
  Real.sqrt (sqLen v)

/-- Distance between two points, modelling `(a - b).length`. -/
noncomputable def dist3 (a b : Vec3) : ℝ :=
  vlen ⟨a.x - b.x, a.y - b.y, a.z - b.z⟩

/-- Read-only mesh snapshot: the parts of the BMesh structure the operator
reads. `edgeVerts` gives the two endpoint vertices of an edge in their
stored order (`edge.verts`), `linkFaces` the faces adjacent to an edge
(`edge.link_faces`), `linkEdges` the edges incident to a vertex
(`vert.link_edges`), `faceEdges` and `faceVerts` the boundary of a face
(`face.edges`, `face.verts`). -/
structure Mesh where
  pos : Nat → Vec3
  edgeVerts : Nat → Nat × Nat
  linkFaces : Nat → List Nat
  linkEdges : Nat → List Nat
  faceEdges : Nat → List Nat
  faceVerts : Nat → List Nat

/-- Midpoint of an edge, modelling `(edge.verts[0].co + edge.verts[1].co) / 2`. -/
noncomputable def edgeMid (m : Mesh) (e : Nat) : Vec3 :=
  mid (m.pos (m.edgeVerts e).1) (m.pos (m.edgeVerts e).2)

/-- Whether two edges, given by their endpoint pairs, share a vertex:
models `set(face_edge.verts) & edge_verts` being non-empty. -/
def sharesVert (a b : Nat × Nat) : Bool :=
  (a.1 == b.1) || (a.1 == b.2) || (a.2 == b.1) || (a.2 == b.2)

/-- `find_opposite_edge_in_face`: in a 4-edge face, the first face edge that
is not the given edge and shares no vertex with it; `none` when the face is
not a quad or no such edge exists. -/
def find_opposite_edge_in_face (m : Mesh) (e f : Nat) : Option Nat :=
  if (m.faceEdges f).length = 4 then
    (m.faceEdges f).find? (fun fe =>
      (fe != e) && !(sharesVert (m.edgeVerts fe) (m.edgeVerts e)))
  else
    none

/-- The local `dist1` and `dist2` of `get_quad_slide_range`: the distance
from the midpoint of a found opposite edge to the edge midpoint, or the
initial value 0 when no opposite edge was found. -/
noncomputable def oppDist (m : Mesh) (e : Nat) (parallel : Option Nat) : ℝ :=
  match parallel with
  | some p => dist3 (edgeMid m p) (edgeMid m e)
  | none => 0

/-- `get_quad_slide_range`: slide range for an edge between two quads.
Each available opposite edge contributes the distance from its midpoint to
the edge midpoint; a zero or missing distance on one side falls back to the
other side. -/
noncomputable def get_quad_slide_range (m : Mesh) (e f1 f2 : Nat) : Option (ℝ × ℝ) :=
  if find_opposite_edge_in_face m e f1 = none ∧
      find_opposite_edge_in_face m e f2 = none then
    none
  else
    some
      (if 0 < oppDist m e (find_opposite_edge_in_face m e f1) then
        oppDist m e (find_opposite_edge_in_face m e f1)
      else oppDist m e (find_opposite_edge_in_face m e f2),
      if 0 < oppDist m e (find_opposite_edge_in_face m e f2) then
        oppDist m e (find_opposite_edge_in_face m e f2)
      else oppDist m e (find_opposite_edge_in_face m e f1))

/-- Maximum distance from a point to the positions of the face vertices not
belonging to the edge, starting from 0; models the loop accumulating
`max_dist` in `get_general_slide_range`. -/
noncomputable def farthestOffEdge (m : Mesh) (e f : Nat) (c : Vec3) : ℝ :=
  ((m.faceVerts f).filter (fun v =>
      v ≠ (m.edgeVerts e).1 ∧ v ≠ (m.edgeVerts e).2)).foldl
    (fun acc v => max acc (dist3 (m.pos v) c)) 0

/-- `get_general_slide_range`: conservative slide range for non-quad
topology, scaling the farthest off-edge vertex distance by 0.7. -/
noncomputable def get_general_slide_range (m : Mesh) (e f1 f2 : Nat) : Option (ℝ × ℝ) :=
  let c := edgeMid m e
  some (farthestOffEdge m e f1 c * (7 / 10), farthestOffEdge m e f2 c * (7 / 10))

/-- `get_edge_slide_range`: `none` unless the edge has exactly two adjacent
faces; quad path when both faces have four edges, general path otherwise. -/
noncomputable def get_edge_slide_range (m : Mesh) (e : Nat) : Option (ℝ × ℝ) :=
  match m.linkFaces e with
  | [f1, f2] =>
    if (m.faceEdges f1).length = 4 ∧ (m.faceEdges f2).length = 4 then
      get_quad_slide_range m e f1 f2
    else
      get_general_slide_range m e f1 f2
  | _ => none

/-- The flattened endpoint list of a selection: each edge contributes its
two stored endpoint vertices. The per-vertex multiplicity in this list is
exactly the `vert_count` dictionary built by `is_edge_loop`. -/
def flatVerts (m : Mesh) (edges : List Nat) : List Nat :=
  edges.flatMap (fun e => [(m.edgeVerts e).1, (m.edgeVerts e).2])

/-- `is_edge_loop`: every vertex touched by the selection is counted
exactly twice among edge endpoints. -/
def is_edge_loop (m : Mesh) (edges : List Nat) : Bool :=
  (flatVerts m edges).all (fun v => (flatVerts m edges).count v == 2)

/-- `BMEdge.other_vert`: the endpoint of the edge other than the given one. -/
def otherVert (m : Mesh) (e v : Nat) : Nat :=
  if (m.edgeVerts e).1 = v then (m.edgeVerts e).2 else (m.edgeVerts e).1

/-- One direction of the `while True` walk in `build_loop_from_edge`: from
the current vertex, repeatedly take the first incident edge that is in the
selection and not yet processed, append it to the chain, mark it processed
and move to its other endpoint. `fuel` bounds the iteration; the caller
passes more fuel than there are selectable edges, so the walk always ends
by exhausting candidates. -/
def slideWalk (m : Mesh) (allEdges : List Nat) :
    Nat → Nat → List Nat × List Nat → List Nat × List Nat
  | 0, _, s => s
  | fuel + 1, v, (loop, processed) =>
    match (m.linkEdges v).find? (fun e =>
        allEdges.contains e && !(processed.contains e)) with
    | none => (loop, processed)
    | some next =>
      slideWalk m allEdges fuel (otherVert m next v)
        (loop ++ [next], next :: processed)

/-- `build_loop_from_edge`: start a chain at the given edge, mark it
processed, then extend from each of its two endpoints in turn. Returns
the chain together with the updated processed set. -/
def build_loop_from_edge (m : Mesh) (allEdges : List Nat) (start : Nat)
    (processed : List Nat) : List Nat × List Nat :=
  let fuel := allEdges.length + 1
  let s1 := slideWalk m allEdges fuel (m.edgeVerts start).1
    ([start], start :: processed)
  slideWalk m allEdges fuel (m.edgeVerts start).2 s1

/-- Iteration of `find_edge_loops`: trace a chain from each not yet
processed seed edge and keep the chains longer than two edges. -/
def find_edge_loops_go (m : Mesh) (allEdges : List Nat) :
    List Nat → List Nat → List (List Nat)
  | [], _ => []
  | e :: rest, processed =>
    if e ∈ processed then
      find_edge_loops_go m allEdges rest processed
    else
      let r := build_loop_from_edge m allEdges e processed
      if 2 < r.1.length then
        r.1 :: find_edge_loops_go m allEdges rest r.2
      else
        find_edge_loops_go m allEdges rest r.2

/-- `find_edge_loops`: chains of length greater than two traced from the
selection, in seed order. -/
def find_edge_loops (m : Mesh) (edges : List Nat) : List (List Nat) :=
  find_edge_loops_go m edges edges []

/-- All chains the repair pass traces, with no length filtering. Threads
the processed set exactly as `find_edge_loops_go` does; used to state what
the filter keeps. -/
def traceChainsGo (m : Mesh) (allEdges : List Nat) :
    List Nat → List Nat → List (List Nat)
  | [], _ => []
  | e :: rest, processed =>
    if e ∈ processed then
      traceChainsGo m allEdges rest processed
    else
      let r := build_loop_from_edge m allEdges e processed
      r.1 :: traceChainsGo m allEdges rest r.2

/-- All traced chains of the repair pass, unfiltered. -/
def traceChains (m : Mesh) (edges : List Nat) : List (List Nat) :=
  traceChainsGo m edges edges []

/-- The `measurement_method` enumeration of the operator. -/
inductive MeasureMethod where
  | AVERAGE
  | MINIMUM
  | MAXIMUM
  | FIRST
deriving DecidableEq, Repr

/-- Python `min` over a list, meaningful on non-empty lists (the operator
only applies it to non-empty collections); 0 on the empty list. -/
noncomputable def pyMin : List ℝ → ℝ
  | [] => 0
  | x :: xs => xs.foldl min x

/-- Python `max` over a list, meaningful on non-empty lists; 0 on the
empty list. -/
noncomputable def pyMax : List ℝ → ℝ
  | [] => 0
  | x :: xs => xs.foldl max x

/-- The dictionary returned by `analyze_edge_loop`: aggregated directional
distances, informational average width, and the resolved loop length. -/
structure SlideData where
  distPos : ℝ
  distNeg : ℝ
  avgWidth : ℝ
  edgeCount : Nat

/-- The per-edge collection and aggregation phase of `analyze_edge_loop`,
run on the resolved loop: collect the slide range of each edge that has
one, fail when nothing was collected, then combine componentwise by the
configured statistic and average the widths. -/
noncomputable def analyzeResolved (m : Mesh) (method : MeasureMethod)
    (edges : List Nat) : Option SlideData :=
  let pairs := edges.filterMap (get_edge_slide_range m)
  let positives := pairs.map Prod.fst
  let negatives := pairs.map Prod.snd
  let widths := pairs.map (fun q => q.1 + q.2)
  if positives.isEmpty then
    none
  else
    let rd : ℝ × ℝ :=
      match method with
      | .AVERAGE =>
        (positives.sum / positives.length, negatives.sum / negatives.length)
      | .MINIMUM => (pyMin positives, pyMin negatives)
      | .MAXIMUM => (pyMax positives, pyMax negatives)
      | .FIRST => (positives.headI, negatives.headI)
    let avgWidth : ℝ := if widths.isEmpty then 0 else widths.sum / widths.length
    some ⟨rd.1, rd.2, avgWidth, edges.length⟩

/-- `analyze_edge_loop`: accept the raw selection when it passes the
degree-2 check, otherwise use the first repaired chain, failing when there
is none; then collect and aggregate. -/
noncomputable def analyze_edge_loop (m : Mesh) (method : MeasureMethod)
    (sel : List Nat) : Option SlideData :=
  if is_edge_loop m sel then
    analyzeResolved m method sel
  else
    match find_edge_loops m sel with
    | [] => none
    | l :: _ => analyzeResolved m method l

/-- `distance_to_factor`: pick the directional maximum by the sign of the
requested distance, return 0 when it is zero, otherwise divide and
optionally clamp to the interval from -1 to 1. -/
noncomputable def distance_to_factor (distances : ℝ × ℝ) (distance : ℝ)
    (use_clamp : Bool) : ℝ :=
  let max_dist := if 0 ≤ distance then distances.1 else distances.2
  if max_dist = 0 then
    0
  else
    let factor := distance / max_dist
    if use_clamp then max (-1) (min 1 factor) else factor

/-- The same mesh with the stored endpoint order of one edge reversed:
the edge winding change whose irrelevance the analysis is expected to
guarantee. -/
def swapEdge (m : Mesh) (e0 : Nat) : Mesh :=
  { m with
    edgeVerts := fun i =>
      if i = e0 then ((m.edgeVerts e0).2, (m.edgeVerts e0).1)
      else m.edgeVerts i }

/-- A constant position function for meshes whose geometry is irrelevant
to the property under test. -/
def trivialPos : Nat → Vec3 := fun _ => ⟨0, 0, 0⟩

/-- A triangle selection mesh: three edges 0, 1, 2 forming the cycle on
vertices 0, 1, 2. Geometry and faces are irrelevant here. -/
def Mtri : Mesh where
  pos := trivialPos
  edgeVerts := fun e =>
    match e with
    | 0 => (0, 1)
    | 1 => (1, 2)
    | _ => (2, 0)
  linkFaces := fun _ => []
  linkEdges := fun v =>
    match v with
    | 0 => [0, 2]
    | 1 => [0, 1]
    | _ => [1, 2]
  faceEdges := fun _ => []
  faceVerts := fun _ => []

/-- A path-plus-spur selection mesh: edges 0:(0,1), 1:(1,2), 2:(2,3) and
3:(0,4). Vertices 3 and 4 are touched once, so the degree-2 check fails,
while tracing from edge 0 yields a chain of all four edges. -/
def Mpath : Mesh where
  pos := trivialPos
  edgeVerts := fun e =>
    match e with
    | 0 => (0, 1)
    | 1 => (1, 2)
    | 2 => (2, 3)
    | _ => (0, 4)
  linkFaces := fun _ => []
  linkEdges := fun v =>
    match v with
    | 0 => [0, 3]
    | 1 => [0, 1]
    | 2 => [1, 2]
    | 3 => [2]
    | _ => [3]
  faceEdges := fun _ => []
  faceVerts := fun _ => []

/-- A quad strip: edge 0 on vertices 0:(0,0,0) and 1:(2,0,0) lies between
quad face 0 (edges 0, 2, 3, 1 over vertices 0, 1, 3, 2 at height y = 1)
and quad face 1 (edges 0, 5, 6, 4 over vertices 0, 1, 5, 4 at height
y = -1). The opposite edges of edge 0 are edge 3 (midpoint (1,1,0)) and
edge 6 (midpoint (1,-1,0)); both lie at distance 1 from the midpoint
(1,0,0) of edge 0. -/
def Mgood : Mesh where
  pos := fun v =>
    match v with
    | 0 => ⟨0, 0, 0⟩
    | 1 => ⟨2, 0, 0⟩
    | 2 => ⟨0, 1, 0⟩
    | 3 => ⟨2, 1, 0⟩
    | 4 => ⟨0, -1, 0⟩
    | _ => ⟨2, -1, 0⟩
  edgeVerts := fun e =>
    match e with
    | 0 => (0, 1)
    | 1 => (0, 2)
    | 2 => (1, 3)
    | 3 => (2, 3)
    | 4 => (0, 4)
    | 5 => (1, 5)
    | _ => (4, 5)
  linkFaces := fun e =>
    match e with
    | 0 => [0, 1]
    | _ => []
  linkEdges := fun _ => []
  faceEdges := fun f =>
    match f with
    | 0 => [0, 2, 3, 1]
    | 1 => [0, 5, 6, 4]
    | _ => []
  faceVerts := fun _ => []

/-- The quad strip of `Mgood` with the face-0 side collapsed: vertices 2
and 3 of the opposite edge 3 coincide with vertices 0 and 1, so the
midpoint of edge 3 coincides with the midpoint of edge 0 and the face-0
distance degenerates to 0, while the face-1 distance is 1. -/
def Mdegen : Mesh where
  pos := fun v =>
    match v with
    | 0 => ⟨0, 0, 0⟩
    | 1 => ⟨2, 0, 0⟩
    | 2 => ⟨0, 0, 0⟩
    | 3 => ⟨2, 0, 0⟩
    | 4 => ⟨0, 1, 0⟩
    | _ => ⟨2, 1, 0⟩
  edgeVerts := fun e =>
    match e with
    | 0 => (0, 1)
    | 1 => (0, 2)
    | 2 => (1, 3)
    | 3 => (2, 3)
    | 4 => (0, 4)
    | 5 => (1, 5)
    | _ => (4, 5)
  linkFaces := fun e =>
    match e with
    | 0 => [0, 1]
    | _ => []
  linkEdges := fun _ => []
  faceEdges := fun f =>
    match f with
    | 0 => [0, 2, 3, 1]
    | 1 => [0, 5, 6, 4]
    | _ => []
  faceVerts := fun _ => []

/-- A mesh where edge 0 sits between quad face 0, which yields opposite
edge 3 as in `Mgood`, and a combinatorial quad face 1 whose three other
edges 4:(0,4), 5:(1,4), 6:(1,5) all share a vertex with edge 0, so no
opposite edge exists on that side. -/
def Mone : Mesh where
  pos := fun v =>
    match v with
    | 0 => ⟨0, 0, 0⟩
    | 1 => ⟨2, 0, 0⟩
    | 2 => ⟨0, 1, 0⟩
    | 3 => ⟨2, 1, 0⟩
    | _ => ⟨0, 0, 0⟩
  edgeVerts := fun e =>
    match e with
    | 0 => (0, 1)
    | 1 => (0, 2)
    | 2 => (1, 3)
    | 3 => (2, 3)
    | 4 => (0, 4)
    | 5 => (1, 4)
    | _ => (1, 5)
  linkFaces := fun e =>
    match e with
    | 0 => [0, 1]
    | _ => []
  linkEdges := fun _ => []
  faceEdges := fun f =>
    match f with
    | 0 => [0, 2, 3, 1]
    | 1 => [0, 5, 6, 4]
    | _ => []
  faceVerts := fun _ => []

/-- A mesh where edge 0 sits between two combinatorial quad faces in
which every other face edge shares a vertex with edge 0, so neither side
yields an opposite edge. -/
def Mnone : Mesh where
  pos := trivialPos
  edgeVerts := fun e =>
    match e with
    | 0 => (0, 1)
    | 1 => (0, 2)
    | 2 => (1, 2)
    | 3 => (0, 3)
    | 4 => (0, 4)
    | 5 => (1, 4)
    | _ => (1, 5)
  linkFaces := fun e =>
    match e with
    | 0 => [0, 1]
    | _ => []
  linkEdges := fun _ => []
  faceEdges := fun f =>
    match f with
    | 0 => [0, 1, 2, 3]
    | 1 => [0, 4, 5, 6]
    | _ => []
  faceVerts := fun _ => []

/-- C2: whenever the directional maximum distance selected by the sign of
the target is zero, the resolver returns factor 0, for either clamp
setting; division never occurs on this path. -/
theorem resolver_zero_maxdist_c2 (d : ℝ × ℝ) (t : ℝ) (c : Bool)
    (h : (if 0 ≤ t then d.1 else d.2) = 0) :
    distance_to_factor d t c = 0 := by
  unfold distance_to_factor
  rw [h]
  simp

/-- Witness for C2 at the pair (0, 5), target 1, clamp on. -/
theorem resolver_zero_maxdist_c2_witness :
    distance_to_factor ((0 : ℝ), (5 : ℝ)) 1 true = 0 :=
  resolver_zero_maxdist_c2 ((0 : ℝ), (5 : ℝ)) 1 true (by norm_num)

/-- C4: with nonnegative components, the clamped factor is positive for a
positive target when the positive component is nonzero, negative for a
negative target when the negative component is nonzero, and a zero target
always resolves to factor 0 under either clamp setting. -/
theorem resolver_sign_c4 (d : ℝ × ℝ) (t : ℝ) (c : Bool)
    (h1 : 0 ≤ d.1) (h2 : 0 ≤ d.2) :
    (0 < t → d.1 ≠ 0 → 0 < distance_to_factor d t true) ∧
    (t < 0 → d.2 ≠ 0 → distance_to_factor d t true < 0) ∧
    distance_to_factor d 0 c = 0 := by
  refine ⟨?_, ?_, ?_⟩
  · intro ht hd
    have hpos : 0 < d.1 := lt_of_le_of_ne h1 (Ne.symm hd)
    unfold distance_to_factor
    rw [if_pos ht.le, if_neg hd]
    have hf : 0 < t / d.1 := div_pos ht hpos
    simp only [if_pos rfl]
    rcases lt_or_le (t / d.1) 1 with hlt | hle
    · rw [min_eq_right hlt.le]
      exact lt_max_of_lt_right hf
    · rw [min_eq_left hle]
      exact lt_max_of_lt_right one_pos
  · intro ht hd
    have hpos : 0 < d.2 := lt_of_le_of_ne h2 (Ne.symm hd)
    unfold distance_to_factor
    rw [if_neg (not_le.mpr ht), if_neg hd]
    have hf : t / d.2 < 0 := div_neg_of_neg_of_pos ht hpos
    simp only [if_pos rfl]
    have hm : min 1 (t / d.2) = t / d.2 := min_eq_right (hf.le.trans zero_le_one)
    rw [hm]
    exact max_lt (by norm_num) hf
  · unfold distance_to_factor
    rw [if_pos le_rfl]
    by_cases hz : d.1 = 0
    · rw [if_pos hz]
    · rw [if_neg hz]
      simp only [zero_div]
      cases c with
      | false => simp
      | true => simp

/-- Witness for C4 at the pair (2, 3), target 1, clamp flag true. -/
theorem resolver_sign_c4_witness :
    0 < distance_to_factor ((2 : ℝ), (3 : ℝ)) 1 true :=
  (resolver_sign_c4 ((2 : ℝ), (3 : ℝ)) 1 true (by norm_num) (by norm_num)).1
    (by norm_num) (by norm_num)

/-- C5: with clamping the resolver always lands in the interval from -1
to 1; without clamping, whenever the selected directional maximum is
nonzero, the result is exactly the target divided by that maximum. -/
theorem resolver_clamp_c5 (d : ℝ × ℝ) (t : ℝ) :
    (-1 ≤ distance_to_factor d t true ∧ distance_to_factor d t true ≤ 1) ∧
    ((if 0 ≤ t then d.1 else d.2) ≠ 0 →
      distance_to_factor d t false = t / (if 0 ≤ t then d.1 else d.2)) := by
  constructor
  · unfold distance_to_factor
    by_cases hz : (if 0 ≤ t then d.1 else d.2) = 0
    · rw [if_pos hz]
      norm_num
    · rw [if_neg hz]
      simp only [if_pos rfl]
      constructor
      · exact le_max_left _ _
      · exact max_le (by norm_num) (min_le_left _ _)
  · intro hz
    unfold distance_to_factor
    rw [if_neg hz]
    simp

/-- Witness for C5 at the pair (2, 3), target 1. -/
theorem resolver_clamp_c5_witness :
    -1 ≤ distance_to_factor ((2 : ℝ), (3 : ℝ)) 1 true ∧
    distance_to_factor ((2 : ℝ), (3 : ℝ)) 1 false = 1 / 2 := by
  refine ⟨(resolver_clamp_c5 ((2 : ℝ), (3 : ℝ)) 1).1.1, ?_⟩
  have h := (resolver_clamp_c5 ((2 : ℝ), (3 : ℝ)) 1).2
  rw [if_pos (by norm_num : (0 : ℝ) ≤ 1)] at h
  exact h (by norm_num)

/-- The endpoint multiplicity of a vertex in the flattened endpoint list
equals the number of selected edges touching that vertex, as long as no
edge is degenerate (its two stored endpoints differ). -/
theorem flat_count_eq_degree (m : Mesh) (sel : List Nat)
    (hdeg : ∀ e ∈ sel, (m.edgeVerts e).1 ≠ (m.edgeVerts e).2) (v : Nat) :
    (flatVerts m sel).count v =
      (sel.filter (fun e =>
        decide ((m.edgeVerts e).1 = v ∨ (m.edgeVerts e).2 = v))).length := by
  induction sel with
  | nil => rfl
  | cons e s ih =>
    have hne : (m.edgeVerts e).1 ≠ (m.edgeVerts e).2 := hdeg e (by simp)
    have ihs := ih (fun x hx => hdeg x (List.mem_cons_of_mem e hx))
    have hflat : flatVerts m (e :: s) =
        (m.edgeVerts e).1 :: (m.edgeVerts e).2 :: flatVerts m s := by
      simp [flatVerts]
    rw [hflat]
    by_cases h1 : (m.edgeVerts e).1 = v
    · by_cases h2 : (m.edgeVerts e).2 = v
      · exact absurd (h1.trans h2.symm) hne
      · simp only [List.count_cons, List.filter_cons, h1, h2, ihs]
        simp [h2]
    · by_cases h2 : (m.edgeVerts e).2 = v
      · simp only [List.count_cons, List.filter_cons, h1, h2, ihs]
        simp [h1]
      · simp only [List.count_cons, List.filter_cons, h1, h2, ihs]
        simp [h1, h2]

/-- C8: for a duplicate-free selection of non-degenerate edges, the loop
check succeeds exactly when every touched vertex is touched by exactly two
selected edges, and a successful check makes the analysis use the raw
selection directly, skipping repair. -/
theorem loop_check_c8 (m : Mesh) (method : MeasureMethod) (sel : List Nat)
    (hnd : sel.Nodup)
    (hdeg : ∀ e ∈ sel, (m.edgeVerts e).1 ≠ (m.edgeVerts e).2) :
    (is_edge_loop m sel = true ↔
      ∀ v ∈ flatVerts m sel,
        (sel.filter (fun e =>
          decide ((m.edgeVerts e).1 = v ∨ (m.edgeVerts e).2 = v))).length = 2) ∧
    (is_edge_loop m sel = true →
      analyze_edge_loop m method sel = analyzeResolved m method sel) := by
  constructor
  · unfold is_edge_loop
    rw [List.all_eq_true]
    constructor
    · intro h v hv
      rw [← flat_count_eq_degree m sel hdeg v]
      simpa using h v hv
    · intro h v hv
      simp only [beq_iff_eq]
      rw [flat_count_eq_degree m sel hdeg v]
      exact h v hv
  · intro h
    unfold analyze_edge_loop
    rw [if_pos h]

/-- Witness for C8: a three-edge triangle selection passes the check and
every touched vertex is touched by exactly two of its edges. -/
theorem loop_check_c8_witness :
    (is_edge_loop Mtri [0, 1, 2] = true ↔
      ∀ v ∈ flatVerts Mtri [0, 1, 2],
        ([0, 1, 2].filter (fun e =>
          decide ((Mtri.edgeVerts e).1 = v ∨ (Mtri.edgeVerts e).2 = v))).length = 2) ∧
    (is_edge_loop Mtri [0, 1, 2] = true →
      analyze_edge_loop Mtri .AVERAGE [0, 1, 2] =
        analyzeResolved Mtri .AVERAGE [0, 1, 2]) :=
  loop_check_c8 Mtri .AVERAGE [0, 1, 2] (by decide) (by decide)

/-- The repair pass keeps exactly the traced chains longer than two edges,
threading the processed set identically whether or not a chain is kept. -/
theorem find_go_eq_filter (m : Mesh) (allEdges : List Nat) (l processed : List Nat) :
    find_edge_loops_go m allEdges l processed =
      (traceChainsGo m allEdges l processed).filter
        (fun c => decide (2 < c.length)) := by
  induction l generalizing processed with
  | nil => rfl
  | cons e rest ih =>
    unfold find_edge_loops_go traceChainsGo
    by_cases hp : e ∈ processed
    · rw [if_pos hp, if_pos hp]
      exact ih processed
    · rw [if_neg hp, if_neg hp]
      simp only [List.filter_cons]
      by_cases hl : 2 < (build_loop_from_edge m allEdges e processed).1.length
      · rw [if_pos hl, ih]
        simp [hl]
      · rw [if_neg hl, ih]
        simp [hl]

/-- C3: on a selection failing the degree-2 check, the repaired loops are
exactly the traced chains of length greater than two; every returned chain
is longer than two edges; when none exists the analysis fails, and
otherwise the first such chain is the loop used for the rest of the
analysis. -/
theorem loop_repair_c3 (m : Mesh) (method : MeasureMethod) (sel : List Nat)
    (h : is_edge_loop m sel = false) :
    find_edge_loops m sel =
      (traceChains m sel).filter (fun c => decide (2 < c.length)) ∧
    (∀ l ∈ find_edge_loops m sel, 2 < l.length) ∧
    (find_edge_loops m sel = [] → analyze_edge_loop m method sel = none) ∧
    (∀ l rest, find_edge_loops m sel = l :: rest →
      analyze_edge_loop m method sel = analyzeResolved m method l) := by
  have hfilter := find_go_eq_filter m sel sel []
  refine ⟨hfilter, ?_, ?_, ?_⟩
  · intro l hl
    rw [show find_edge_loops m sel =
          find_edge_loops_go m sel sel [] from rfl, hfilter] at hl
    have := (List.mem_filter.mp hl).2
    simpa using this
  · intro he
    unfold analyze_edge_loop
    rw [if_neg (by simp [h]), he]
  · intro l rest he
    unfold analyze_edge_loop
    rw [if_neg (by simp [h]), he]

/-- Witness for C3: on the path-plus-spur selection the check fails, and
the theorem describes the repaired loops. -/
theorem loop_repair_c3_witness :
    find_edge_loops Mpath [0, 1, 2, 3] =
      (traceChains Mpath [0, 1, 2, 3]).filter (fun c => decide (2 < c.length)) ∧
    (∀ l ∈ find_edge_loops Mpath [0, 1, 2, 3], 2 < l.length) ∧
    (find_edge_loops Mpath [0, 1, 2, 3] = [] →
      analyze_edge_loop Mpath .AVERAGE [0, 1, 2, 3] = none) ∧
    (∀ l rest, find_edge_loops Mpath [0, 1, 2, 3] = l :: rest →
      analyze_edge_loop Mpath .AVERAGE [0, 1, 2, 3] =
        analyzeResolved Mpath .AVERAGE l) :=
  loop_repair_c3 Mpath .AVERAGE [0, 1, 2, 3] (by decide)

/-- A walk over the singleton selection whose only edge is already
processed finds no candidate and leaves the state unchanged. -/
theorem walk_single (m : Mesh) (e : Nat) (fuel v : Nat) :
    slideWalk m [e] fuel v ([e], [e]) = ([e], [e]) := by
  cases fuel with
  | zero => rfl
  | succ n =>
    unfold slideWalk
    rw [List.find?_eq_none.mpr (fun x _ => by simp)]

/-- Tracing from a single selected edge yields the one-edge chain. -/
theorem build_single (m : Mesh) (e : Nat) :
    build_loop_from_edge m [e] e [] = ([e], [e]) := by
  unfold build_loop_from_edge
  simp only [List.length_cons, List.length_nil]
  rw [walk_single, walk_single]

/-- C9: a single selected edge with no adjacent faces makes the whole
analysis fail; any edge without exactly two adjacent faces has no slide
range and is excluded from collection; and an empty collected set makes
the aggregation phase fail. -/
theorem boundary_edge_c9 (m : Mesh) (method : MeasureMethod) (e : Nat)
    (l : List Nat) (hf : m.linkFaces e = []) :
    analyze_edge_loop m method [e] = none ∧
    (∀ e2, (m.linkFaces e2).length ≠ 2 → get_edge_slide_range m e2 = none) ∧
    (l.filterMap (get_edge_slide_range m) = [] →
      analyzeResolved m method l = none) := by
  have hrange : ∀ e2, (m.linkFaces e2).length ≠ 2 →
      get_edge_slide_range m e2 = none := by
    intro e2 h2
    unfold get_edge_slide_range
    rcases hl : m.linkFaces e2 with _ | ⟨f1, _ | ⟨f2, _ | ⟨f3, t⟩⟩⟩
    · rfl
    · rfl
    · rw [hl] at h2
      simp at h2
    · rfl
  have hempty : ∀ l2 : List Nat, l2.filterMap (get_edge_slide_range m) = [] →
      analyzeResolved m method l2 = none := by
    intro l2 hl2
    unfold analyzeResolved
    rw [hl2]
    rfl
  refine ⟨?_, hrange, hempty l⟩
  have hnone : get_edge_slide_range m e = none :=
    hrange e (by rw [hf]; simp)
  by_cases hloop : is_edge_loop m [e]
  · unfold analyze_edge_loop
    rw [if_pos hloop]
    apply hempty
    simp [hnone]
  · unfold analyze_edge_loop
    rw [if_neg hloop]
    have hloops : find_edge_loops m [e] = [] := by
      unfold find_edge_loops
      simp [find_edge_loops_go, build_single]
    rw [hloops]

/-- Witness for C9 at edge 0 of the face-free triangle mesh. -/
theorem boundary_edge_c9_witness :
    analyze_edge_loop Mtri .AVERAGE [0] = none ∧
    (∀ e2, (Mtri.linkFaces e2).length ≠ 2 →
      get_edge_slide_range Mtri e2 = none) ∧
    ([0].filterMap (get_edge_slide_range Mtri) = [] →
      analyzeResolved Mtri .AVERAGE [0] = none) :=
  boundary_edge_c9 Mtri .AVERAGE 0 [0] rfl

/-- Distances are square roots, hence nonnegative. -/
theorem dist3_nonneg (a b : Vec3) : 0 ≤ dist3 a b :=
  Real.sqrt_nonneg _

/-- Endpoint order does not affect which edges share a vertex. -/
theorem sharesVert_swap (a b : Nat × Nat) :
    sharesVert a (b.2, b.1) = sharesVert a b := by
  have key : ∀ p q r s : Bool, (p || q || r || s) = (q || p || s || r) := by
    decide
  show ((a.1 == b.2) || (a.1 == b.1) || (a.2 == b.2) || (a.2 == b.1)) =
    ((a.1 == b.1) || (a.1 == b.2) || (a.2 == b.1) || (a.2 == b.2))
  exact key _ _ _ _

/-- Search with pointwise equal predicates finds the same result. -/
theorem find?_ext {α : Type} {p q : α → Bool} (l : List α)
    (h : ∀ x ∈ l, p x = q x) : l.find? p = l.find? q := by
  induction l with
  | nil => rfl
  | cons a t ih =>
    have ha := h a (by simp)
    by_cases hp : p a = true
    · rw [List.find?_cons_of_pos _ hp, List.find?_cons_of_pos _ (ha ▸ hp)]
    · have hq : ¬(q a = true) := by rw [← ha]; exact hp
      rw [List.find?_cons_of_neg _ (by simpa using hp),
        List.find?_cons_of_neg _ (by simpa using hq)]
      exact ih (fun x hx => h x (by simp [hx]))

/-- Reversing the stored endpoints of the probed edge does not change the
opposite edge found in a face. -/
theorem find_opposite_swap (m : Mesh) (e f : Nat) :
    find_opposite_edge_in_face (swapEdge m e) e f =
      find_opposite_edge_in_face m e f := by
  unfold find_opposite_edge_in_face
  have hfe : (swapEdge m e).faceEdges f = m.faceEdges f := rfl
  rw [hfe]
  by_cases h4 : (m.faceEdges f).length = 4
  · rw [if_pos h4, if_pos h4]
    apply find?_ext
    intro x hx
    by_cases hxe : x = e
    · subst hxe
      simp
    · have hv1 : (swapEdge m e).edgeVerts x = m.edgeVerts x := by
        simp [swapEdge, hxe]
      have hv2 : (swapEdge m e).edgeVerts e =
          ((m.edgeVerts e).2, (m.edgeVerts e).1) := by
        simp [swapEdge]
      rw [hv1, hv2, sharesVert_swap]
  · rw [if_neg h4, if_neg h4]

/-- The opposite edge found in a face is never the probed edge itself. -/
theorem find_opposite_ne (m : Mesh) (e f p : Nat)
    (h : find_opposite_edge_in_face m e f = some p) : p ≠ e := by
  unfold find_opposite_edge_in_face at h
  by_cases h4 : (m.faceEdges f).length = 4
  · rw [if_pos h4] at h
    have hp := List.find?_some h
    simp at hp
    exact hp.1
  · rw [if_neg h4] at h
    cases h

/-- The midpoint of the swapped edge is unchanged. -/
theorem edgeMid_swap_self (m : Mesh) (e : Nat) :
    edgeMid (swapEdge m e) e = edgeMid m e := by
  unfold edgeMid
  have hv2 : (swapEdge m e).edgeVerts e =
      ((m.edgeVerts e).2, (m.edgeVerts e).1) := by
    simp [swapEdge]
  rw [hv2]
  show mid (m.pos (m.edgeVerts e).2) (m.pos (m.edgeVerts e).1) = _
  simp only [mid, Vec3.mk.injEq]
  refine ⟨by ring, by ring, by ring⟩

/-- Midpoints of the other edges are untouched by the swap. -/
theorem edgeMid_swap_other (m : Mesh) (e p : Nat) (h : p ≠ e) :
    edgeMid (swapEdge m e) p = edgeMid m p := by
  unfold edgeMid
  have hv : (swapEdge m e).edgeVerts p = m.edgeVerts p := by
    simp [swapEdge, h]
  rw [hv]
  rfl

/-- The fallback distance value is unchanged by the swap, provided the
candidate opposite edge is not the swapped edge itself. -/
theorem oppDist_swap (m : Mesh) (e : Nat) (par : Option Nat)
    (hne : ∀ p, par = some p → p ≠ e) :
    oppDist (swapEdge m e) e par = oppDist m e par := by
  cases par with
  | none => rfl
  | some p =>
    show dist3 (edgeMid (swapEdge m e) p) (edgeMid (swapEdge m e) e) =
      dist3 (edgeMid m p) (edgeMid m e)
    rw [edgeMid_swap_self, edgeMid_swap_other m e p (hne p rfl)]

/-- The quad slide range is invariant under reversing the stored endpoint
order of the probed edge. -/
theorem get_quad_swap (m : Mesh) (e f1 f2 : Nat) :
    get_quad_slide_range (swapEdge m e) e f1 f2 =
      get_quad_slide_range m e f1 f2 := by
  unfold get_quad_slide_range
  rw [find_opposite_swap, find_opposite_swap,
    oppDist_swap m e _ (fun p hp => find_opposite_ne m e f1 p hp),
    oppDist_swap m e _ (fun p hp => find_opposite_ne m e f2 p hp)]

/-- C1 (amended): when both faces yield opposite edges and both
midpoint-to-midpoint distances are positive, the quad slide range is
exactly that pair of distances, and the result never depends on the
stored endpoint order of the edge. -/
theorem quad_range_c1 (m : Mesh) (e f1 f2 p1 p2 : Nat)
    (h1 : find_opposite_edge_in_face m e f1 = some p1)
    (h2 : find_opposite_edge_in_face m e f2 = some p2)
    (hd1 : 0 < dist3 (edgeMid m p1) (edgeMid m e))
    (hd2 : 0 < dist3 (edgeMid m p2) (edgeMid m e)) :
    get_quad_slide_range m e f1 f2 =
      some (dist3 (edgeMid m p1) (edgeMid m e),
        dist3 (edgeMid m p2) (edgeMid m e)) ∧
    get_quad_slide_range (swapEdge m e) e f1 f2 =
      get_quad_slide_range m e f1 f2 := by
  refine ⟨?_, get_quad_swap m e f1 f2⟩
  unfold get_quad_slide_range
  rw [h1, h2, if_neg (by simp)]
  simp only [oppDist]
  rw [if_pos hd1, if_pos hd2]

/-- Midpoint of edge 0 of the quad strip. -/
theorem Mgood_mid0 : edgeMid Mgood 0 = ⟨1, 0, 0⟩ := by
  show mid ⟨0, 0, 0⟩ ⟨2, 0, 0⟩ = ⟨1, 0, 0⟩
  simp only [mid, Vec3.mk.injEq]
  norm_num

/-- Midpoint of the face-0 opposite edge of the quad strip. -/
theorem Mgood_mid3 : edgeMid Mgood 3 = ⟨1, 1, 0⟩ := by
  show mid ⟨0, 1, 0⟩ ⟨2, 1, 0⟩ = ⟨1, 1, 0⟩
  simp only [mid, Vec3.mk.injEq]
  norm_num

/-- Midpoint of the face-1 opposite edge of the quad strip. -/
theorem Mgood_mid6 : edgeMid Mgood 6 = ⟨1, -1, 0⟩ := by
  show mid ⟨0, -1, 0⟩ ⟨2, -1, 0⟩ = ⟨1, -1, 0⟩
  simp only [mid, Vec3.mk.injEq]
  norm_num

/-- The face-0 directional distance of the quad strip is 1. -/
theorem Mgood_d3 : dist3 (edgeMid Mgood 3) (edgeMid Mgood 0) = 1 := by
  rw [Mgood_mid3, Mgood_mid0]
  unfold dist3 vlen sqLen
  norm_num

/-- The face-1 directional distance of the quad strip is 1. -/
theorem Mgood_d6 : dist3 (edgeMid Mgood 6) (edgeMid Mgood 0) = 1 := by
  rw [Mgood_mid6, Mgood_mid0]
  unfold dist3 vlen sqLen
  norm_num

/-- Witness for C1 on the quad strip: both distances are 1, the result is
the pair of the two distances, and swapping the endpoint order of edge 0
does not change it. -/
theorem quad_range_c1_witness :
    get_quad_slide_range Mgood 0 0 1 =
      some (dist3 (edgeMid Mgood 3) (edgeMid Mgood 0),
        dist3 (edgeMid Mgood 6) (edgeMid Mgood 0)) ∧
    get_quad_slide_range (swapEdge Mgood 0) 0 0 1 =
      get_quad_slide_range Mgood 0 0 1 :=
  quad_range_c1 Mgood 0 0 1 3 6 rfl rfl
    (by rw [Mgood_d3]; norm_num) (by rw [Mgood_d6]; norm_num)

/-- Midpoint of edge 0 of the degenerate strip. -/
theorem Mdegen_mid0 : edgeMid Mdegen 0 = ⟨1, 0, 0⟩ := by
  show mid ⟨0, 0, 0⟩ ⟨2, 0, 0⟩ = ⟨1, 0, 0⟩
  simp only [mid, Vec3.mk.injEq]
  norm_num

/-- Midpoint of the collapsed opposite edge 3 of the degenerate strip:
it coincides with the midpoint of edge 0. -/
theorem Mdegen_mid3 : edgeMid Mdegen 3 = ⟨1, 0, 0⟩ := by
  show mid ⟨0, 0, 0⟩ ⟨2, 0, 0⟩ = ⟨1, 0, 0⟩
  simp only [mid, Vec3.mk.injEq]
  norm_num

/-- Midpoint of the opposite edge 6 of the degenerate strip. -/
theorem Mdegen_mid6 : edgeMid Mdegen 6 = ⟨1, 1, 0⟩ := by
  show mid ⟨0, 1, 0⟩ ⟨2, 1, 0⟩ = ⟨1, 1, 0⟩
  simp only [mid, Vec3.mk.injEq]
  norm_num

/-- The face-0 directional distance of the degenerate strip is 0. -/
theorem Mdegen_d3 : dist3 (edgeMid Mdegen 3) (edgeMid Mdegen 0) = 0 := by
  rw [Mdegen_mid3, Mdegen_mid0]
  unfold dist3 vlen sqLen
  norm_num

/-- The face-1 directional distance of the degenerate strip is 1. -/
theorem Mdegen_d6 : dist3 (edgeMid Mdegen 6) (edgeMid Mdegen 0) = 1 := by
  rw [Mdegen_mid6, Mdegen_mid0]
  unfold dist3 vlen sqLen
  norm_num

/-- Counterexample to C1 as stated: on the degenerate strip both faces
are quads and both yield opposite edges, with midpoint distances 0 and 1,
but the computed range is (1, 1), not the pair (0, 1) of the two
distances — a zero distance is replaced by the other side. -/
theorem quad_range_c1_cex :
    (Mdegen.faceEdges 0).length = 4 ∧
    (Mdegen.faceEdges 1).length = 4 ∧
    find_opposite_edge_in_face Mdegen 0 0 = some 3 ∧
    find_opposite_edge_in_face Mdegen 0 1 = some 6 ∧
    dist3 (edgeMid Mdegen 3) (edgeMid Mdegen 0) = 0 ∧
    dist3 (edgeMid Mdegen 6) (edgeMid Mdegen 0) = 1 ∧
    get_quad_slide_range Mdegen 0 0 1 = some (1, 1) ∧
    get_quad_slide_range Mdegen 0 0 1 ≠
      some (dist3 (edgeMid Mdegen 3) (edgeMid Mdegen 0),
        dist3 (edgeMid Mdegen 6) (edgeMid Mdegen 0)) := by
  have hq : get_quad_slide_range Mdegen 0 0 1 = some (1, 1) := by
    unfold get_quad_slide_range
    rw [show find_opposite_edge_in_face Mdegen 0 0 = some 3 from rfl,
      show find_opposite_edge_in_face Mdegen 0 1 = some 6 from rfl,
      if_neg (by simp)]
    simp only [oppDist]
    rw [Mdegen_d3, Mdegen_d6]
    norm_num
  refine ⟨rfl, rfl, rfl, rfl, Mdegen_d3, Mdegen_d6, hq, ?_⟩
  rw [hq, Mdegen_d3, Mdegen_d6]
  simp only [ne_eq, Option.some.injEq, Prod.mk.injEq, not_and]
  intro h
  norm_num at h

/-- C7: when exactly one of the two quad faces yields an opposite edge,
the single midpoint distance is used for both the positive and the
negative component. -/
theorem quad_mirror_c7 (m : Mesh) (e f1 f2 p : Nat) :
    (find_opposite_edge_in_face m e f1 = some p ∧
        find_opposite_edge_in_face m e f2 = none →
      get_quad_slide_range m e f1 f2 =
        some (dist3 (edgeMid m p) (edgeMid m e),
          dist3 (edgeMid m p) (edgeMid m e))) ∧
    (find_opposite_edge_in_face m e f1 = none ∧
        find_opposite_edge_in_face m e f2 = some p →
      get_quad_slide_range m e f1 f2 =
        some (dist3 (edgeMid m p) (edgeMid m e),
          dist3 (edgeMid m p) (edgeMid m e))) := by
  constructor
  · rintro ⟨h1, h2⟩
    unfold get_quad_slide_range
    rw [h1, h2, if_neg (by simp)]
    simp only [oppDist]
    rcases eq_or_lt_of_le (dist3_nonneg (edgeMid m p) (edgeMid m e)) with
      heq | hlt
    · rw [if_neg (by rw [← heq]; exact lt_irrefl 0), if_neg (lt_irrefl 0),
        ← heq]
    · rw [if_pos hlt, if_neg (lt_irrefl 0)]
  · rintro ⟨h1, h2⟩
    unfold get_quad_slide_range
    rw [h1, h2, if_neg (by simp)]
    simp only [oppDist]
    rcases eq_or_lt_of_le (dist3_nonneg (edgeMid m p) (edgeMid m e)) with
      heq | hlt
    · rw [if_neg (lt_irrefl 0), if_neg (by rw [← heq]; exact lt_irrefl 0),
        ← heq]
    · rw [if_pos hlt, if_neg (lt_irrefl 0)]

/-- Witness for C7: the mesh whose face 1 yields no opposite edge mirrors
the face-0 distance onto both components. -/
theorem quad_mirror_c7_witness :
    get_quad_slide_range Mone 0 0 1 =
      some (dist3 (edgeMid Mone 3) (edgeMid Mone 0),
        dist3 (edgeMid Mone 3) (edgeMid Mone 0)) :=
  (quad_mirror_c7 Mone 0 0 1 3).1 ⟨rfl, rfl⟩

/-- C10: between two quad faces neither of which yields an opposite edge,
the quad slide range is empty, the edge has no slide range at all, and
the collection phase silently skips the edge, exactly as it does for an
edge without two adjacent faces. -/
theorem quad_none_c10 (m : Mesh) (e f1 f2 : Nat) (rest : List Nat)
    (hlf : m.linkFaces e = [f1, f2])
    (hq1 : (m.faceEdges f1).length = 4)
    (hq2 : (m.faceEdges f2).length = 4)
    (h1 : find_opposite_edge_in_face m e f1 = none)
    (h2 : find_opposite_edge_in_face m e f2 = none) :
    get_quad_slide_range m e f1 f2 = none ∧
    get_edge_slide_range m e = none ∧
    (e :: rest).filterMap (get_edge_slide_range m) =
      rest.filterMap (get_edge_slide_range m) := by
  have hq : get_quad_slide_range m e f1 f2 = none := by
    unfold get_quad_slide_range
    rw [if_pos ⟨h1, h2⟩]
  have hr : get_edge_slide_range m e = none := by
    unfold get_edge_slide_range
    rw [hlf]
    show (if (m.faceEdges f1).length = 4 ∧ (m.faceEdges f2).length = 4 then
      get_quad_slide_range m e f1 f2 else get_general_slide_range m e f1 f2) =
      none
    rw [if_pos ⟨hq1, hq2⟩, hq]
  exact ⟨hq, hr, by simp [List.filterMap_cons, hr]⟩

/-- Witness for C10 on the mesh whose two quad faces yield no opposite
edge for edge 0. -/
theorem quad_none_c10_witness :
    get_quad_slide_range Mnone 0 0 1 = none ∧
    get_edge_slide_range Mnone 0 = none ∧
    (0 :: [1]).filterMap (get_edge_slide_range Mnone) =
      [1].filterMap (get_edge_slide_range Mnone) :=
  quad_none_c10 Mnone 0 0 1 [1] rfl rfl rfl rfl rfl

/-- A left fold by `min` lands on the seed or on a list element. -/
theorem foldl_min_mem (xs : List ℝ) (x : ℝ) : xs.foldl min x ∈ x :: xs := by
  induction xs generalizing x with
  | nil => simp
  | cons a t ih =>
    rw [List.foldl_cons]
    rcases List.mem_cons.mp (ih (min x a)) with h1 | h1
    · rcases min_choice x a with h2 | h2
      · rw [h1, h2]
        simp
      · rw [h1, h2]
        simp
    · simp [List.mem_cons, h1]

/-- A left fold by `min` never exceeds its seed. -/
theorem foldl_min_le_self (xs : List ℝ) (x : ℝ) : xs.foldl min x ≤ x := by
  induction xs generalizing x with
  | nil => exact le_rfl
  | cons a t ih =>
    rw [List.foldl_cons]
    exact (ih (min x a)).trans (min_le_left _ _)

/-- A left fold by `min` is a lower bound of the seed and the elements. -/
theorem foldl_min_le (xs : List ℝ) (x y : ℝ) (hy : y ∈ x :: xs) :
    xs.foldl min x ≤ y := by
  induction xs generalizing x with
  | nil =>
    simp at hy
    simp [hy]
  | cons a t ih =>
    rw [List.foldl_cons]
    rcases List.mem_cons.mp hy with h1 | h1
    · exact h1 ▸ (foldl_min_le_self t (min x a)).trans (min_le_left _ _)
    · rcases List.mem_cons.mp h1 with h2 | h2
      · exact h2 ▸ (foldl_min_le_self t (min x a)).trans (min_le_right _ _)
      · exact ih (min x a) (by simp [h2])

/-- A left fold by `max` lands on the seed or on a list element. -/
theorem foldl_max_mem (xs : List ℝ) (x : ℝ) : xs.foldl max x ∈ x :: xs := by
  induction xs generalizing x with
  | nil => simp
  | cons a t ih =>
    rw [List.foldl_cons]
    rcases List.mem_cons.mp (ih (max x a)) with h1 | h1
    · rcases max_choice x a with h2 | h2
      · rw [h1, h2]
        simp
      · rw [h1, h2]
        simp
    · simp [List.mem_cons, h1]

/-- A left fold by `max` is at least its seed. -/
theorem le_foldl_max_self (xs : List ℝ) (x : ℝ) : x ≤ xs.foldl max x := by
  induction xs generalizing x with
  | nil => exact le_rfl
  | cons a t ih =>
    rw [List.foldl_cons]
    exact (le_max_left x a).trans (ih (max x a))

/-- A left fold by `max` is an upper bound of the seed and the elements. -/
theorem le_foldl_max (xs : List ℝ) (x y : ℝ) (hy : y ∈ x :: xs) :
    y ≤ xs.foldl max x := by
  induction xs generalizing x with
  | nil =>
    simp at hy
    simp [hy]
  | cons a t ih =>
    rw [List.foldl_cons]
    rcases List.mem_cons.mp hy with h1 | h1
    · exact h1 ▸ (le_max_left x a).trans (le_foldl_max_self t (max x a))
    · rcases List.mem_cons.mp h1 with h2 | h2
      · exact h2 ▸ (le_max_right x a).trans (le_foldl_max_self t (max x a))
      · exact ih (max x a) (by simp [h2])

/-- Python `min` of a non-empty list is one of its elements. -/
theorem pyMin_mem (x : ℝ) (xs : List ℝ) : pyMin (x :: xs) ∈ x :: xs :=
  foldl_min_mem xs x

/-- Python `min` of a non-empty list bounds every element from below. -/
theorem pyMin_le (x : ℝ) (xs : List ℝ) : ∀ y ∈ x :: xs, pyMin (x :: xs) ≤ y :=
  fun y hy => foldl_min_le xs x y hy

/-- Python `max` of a non-empty list is one of its elements. -/
theorem pyMax_mem (x : ℝ) (xs : List ℝ) : pyMax (x :: xs) ∈ x :: xs :=
  foldl_max_mem xs x

/-- Python `max` of a non-empty list bounds every element from above. -/
theorem le_pyMax (x : ℝ) (xs : List ℝ) : ∀ y ∈ x :: xs, y ≤ pyMax (x :: xs) :=
  fun y hy => le_foldl_max xs x y hy

/-- C6: on a non-empty collected set the aggregation is componentwise —
the mean for AVERAGE, the least collected value for MINIMUM, the greatest
for MAXIMUM, the first collected pair for FIRST — and the informational
loop width is the mean of (positive + negative) over the collected
pairs. -/
theorem aggregate_c6 (m : Mesh) (method : MeasureMethod) (edges : List Nat)
    (p : ℝ × ℝ) (ps : List (ℝ × ℝ))
    (h : edges.filterMap (get_edge_slide_range m) = p :: ps) :
    ∃ r, analyzeResolved m method edges = some r ∧
      r.edgeCount = edges.length ∧
      r.avgWidth =
        ((p :: ps).map (fun q => q.1 + q.2)).sum / ((p :: ps).length : ℝ) ∧
      (match method with
       | MeasureMethod.AVERAGE =>
         r.distPos = ((p :: ps).map Prod.fst).sum / ((p :: ps).length : ℝ) ∧
         r.distNeg = ((p :: ps).map Prod.snd).sum / ((p :: ps).length : ℝ)
       | MeasureMethod.MINIMUM =>
         (r.distPos ∈ (p :: ps).map Prod.fst ∧
           ∀ x ∈ (p :: ps).map Prod.fst, r.distPos ≤ x) ∧
         (r.distNeg ∈ (p :: ps).map Prod.snd ∧
           ∀ x ∈ (p :: ps).map Prod.snd, r.distNeg ≤ x)
       | MeasureMethod.MAXIMUM =>
         (r.distPos ∈ (p :: ps).map Prod.fst ∧
           ∀ x ∈ (p :: ps).map Prod.fst, x ≤ r.distPos) ∧
         (r.distNeg ∈ (p :: ps).map Prod.snd ∧
           ∀ x ∈ (p :: ps).map Prod.snd, x ≤ r.distNeg)
       | MeasureMethod.FIRST =>
         r.distPos = p.1 ∧ r.distNeg = p.2) := by
  simp only [analyzeResolved]
  rw [h]
  simp only [List.map_cons, List.isEmpty_cons, Bool.false_eq_true, if_false]
  refine ⟨_, rfl, rfl, ?_, ?_⟩
  · simp [List.length_map]
  · cases method with
    | AVERAGE =>
      constructor
      · simp [List.length_map]
      · simp [List.length_map]
    | MINIMUM =>
      exact ⟨⟨pyMin_mem _ _, pyMin_le _ _⟩, ⟨pyMin_mem _ _, pyMin_le _ _⟩⟩
    | MAXIMUM =>
      exact ⟨⟨pyMax_mem _ _, le_pyMax _ _⟩, ⟨pyMax_mem _ _, le_pyMax _ _⟩⟩
    | FIRST => exact ⟨rfl, rfl⟩

/-- Edge 0 of the quad strip has slide range (1, 1). -/
theorem Mgood_range : get_edge_slide_range Mgood 0 = some (1, 1) := by
  show get_quad_slide_range Mgood 0 0 1 = some (1, 1)
  unfold get_quad_slide_range
  rw [show find_opposite_edge_in_face Mgood 0 0 = some 3 from rfl,
    show find_opposite_edge_in_face Mgood 0 1 = some 6 from rfl,
    if_neg (by simp)]
  simp only [oppDist]
  rw [Mgood_d3, Mgood_d6]
  norm_num

/-- Witness for C6 on the quad strip with the singleton loop of edge 0
and the AVERAGE statistic. -/
theorem aggregate_c6_witness :
    ∃ r, analyzeResolved Mgood MeasureMethod.AVERAGE [0] = some r ∧
      r.edgeCount = [0].length ∧
      r.avgWidth =
        ([((1 : ℝ), (1 : ℝ))].map (fun q => q.1 + q.2)).sum /
          (([((1 : ℝ), (1 : ℝ))]).length : ℝ) ∧
      (r.distPos =
        ([((1 : ℝ), (1 : ℝ))].map Prod.fst).sum /
          (([((1 : ℝ), (1 : ℝ))]).length : ℝ) ∧
       r.distNeg =
        ([((1 : ℝ), (1 : ℝ))].map Prod.snd).sum /
          (([((1 : ℝ), (1 : ℝ))]).length : ℝ)) :=
  aggregate_c6 Mgood MeasureMethod.AVERAGE [0] (1, 1) []
    (by simp [List.filterMap_cons, Mgood_range])

end EdgeSlide
